import Mathlib

/-!
# Verification of the process supervision and soft-verification engine

Shallow embedding of `src/dev_env_mcp/runner.py`: the stream-capture
routine `_read_stream`, the process-tree terminator
`_terminate_process_tree`, and the polling supervisor `run`.

Modelling conventions:
* Decoded text is `Str := List Char`; Python's `s[:n]` is `List.take`,
  `"".join(buf)` is `List.join`, `h in s` is `strContains s h`.
* Wall-clock instants (`time.monotonic()` floats) are `Time := ℤ`.
  The code compares instants only through subtraction and `≥` against
  integer-second thresholds, so every claim here is expressible over
  integer instants, and they keep the model kernel-evaluable.
  The supervisor loop reads the world once per iteration; each
  iteration's reads (poll result, clock, buffer contents, the value or
  exception an invocation of the verify predicate would produce, the
  last-activity timestamp written by the reader threads) are packaged
  as one `Obs`, and a run is driven by a list of observations.  This
  makes the thread/scheduler nondeterminism an explicit input.
* Python `None` maps to `Option.none`; truthiness of
  `idle_timeout_sec` (`None` and `0` both falsy) and of
  `soft_success_hints` (`None` and `[]` both falsy) is modelled
  explicitly at the use sites, exactly as the guards read.
* The result field `reason` is `Option Reason`, with `none` for the
  source's `None` (the spec's `natural_exit`) and `Reason.kill_wait`
  for the source's string `"kill_wait"` (the spec's `wait_escalation`).
-/

/-- Decoded text: Python `str` as a list of characters. -/
abbrev Str := List Char

/-- Wall-clock instants (integer ticks; see the header note). -/
abbrev Time := Int

/-- Total length of a list of text fragments. -/
def sumLen (l : List Str) : Nat := (l.map List.length).sum

/-- Python's `buf[-10:]` generalised: the last `n` elements of a list. -/
def lastN (n : Nat) (l : List α) : List α := l.drop (l.length - n)

/-- Python's substring test `needle in hay`:
some contiguous slice of `hay` equals `needle`. -/
def strContains (hay needle : Str) : Bool :=
  (List.range (hay.length + 1)).any fun i => needle.isPrefixOf (hay.drop i)

/-! ## Stream capture (`_read_stream`, runner.py lines 23-39)

The reader thread repeatedly reads a chunk, stops at the first empty
chunk (end of stream), stamps `last_output`, decodes, and appends to the
shared buffer only while the accumulated length is below the cap,
clipping the final fragment to the remaining budget.  The cap logic is
pure; we model the sequence of decoded non-empty chunks the thread sees
as a list and fold the body over it.  (The `last_output` stamp is
carried to the supervisor through `Obs.lastOutput`.) -/

/-- One iteration of the `_read_stream` body on the shared
`(buf, buf_len)` pair (runner.py lines 30-34). -/
def readStep (max_chars : Nat) (acc : List Str × Nat) (text : Str) : List Str × Nat :=
  if acc.2 < max_chars then
    (acc.1 ++ [text.take (max_chars - acc.2)], acc.2 + min text.length (max_chars - acc.2))
  else acc

/-- `_read_stream`: the buffer and length after the reader thread has
consumed its stream.  Reading stops at the first empty chunk
(`if not chunk: break`). -/
def readStream (chunks : List Str) (max_chars : Nat) : List Str × Nat :=
  (chunks.takeWhile (fun c => !c.isEmpty)).foldl (readStep max_chars) ([], 0)

lemma readStep_join_len (max_chars : Nat) (buf : List Str) (len : Nat) (text : Str)
    (hinv : sumLen buf = len) (hle : len ≤ max_chars) :
    sumLen (readStep max_chars (buf, len) text).1 = (readStep max_chars (buf, len) text).2 ∧
    (readStep max_chars (buf, len) text).2 = min (len + text.length) max_chars := by
  unfold readStep
  by_cases h : len < max_chars
  · simp only [if_pos h]
    constructor
    · simp only [sumLen, List.map_append, List.sum_append, List.map_cons, List.map_nil,
        List.sum_cons, List.sum_nil, List.length_take] at hinv ⊢
      omega
    · omega
  · simp only [if_neg h]
    exact ⟨hinv, by omega⟩

lemma readStream_foldl_spec (max_chars : Nat) (chunks : List Str) :
    ∀ (buf : List Str) (len : Nat), sumLen buf = len → len ≤ max_chars →
    sumLen (chunks.foldl (readStep max_chars) (buf, len)).1 =
      (chunks.foldl (readStep max_chars) (buf, len)).2 ∧
    (chunks.foldl (readStep max_chars) (buf, len)).2 = min (len + sumLen chunks) max_chars := by
  induction chunks with
  | nil => intro buf len hinv hle; simp [sumLen] at hinv ⊢; omega
  | cons c cs ih =>
    intro buf len hinv hle
    have hstep := readStep_join_len max_chars buf len c hinv hle
    have hle' : (readStep max_chars (buf, len) c).2 ≤ max_chars := by omega
    have := ih (readStep max_chars (buf, len) c).1 (readStep max_chars (buf, len) c).2
      hstep.1 hle'
    simp only [List.foldl_cons]
    constructor
    · exact this.1
    · rw [this.2, hstep.2]
      simp [sumLen]
      omega

/-- The captured buffer's total length is `min` of the produced length
and the cap: never above the cap, and exactly the cap whenever the
(effective) input is at least the cap. -/
lemma readStream_len (chunks : List Str) (max_chars : Nat) :
    sumLen (readStream chunks max_chars).1 = (readStream chunks max_chars).2 ∧
    (readStream chunks max_chars).2 =
      min (sumLen (chunks.takeWhile (fun c => !c.isEmpty))) max_chars := by
  unfold readStream
  have := readStream_foldl_spec max_chars (chunks.takeWhile (fun c => !c.isEmpty)) [] 0
    (by simp [sumLen]) (Nat.zero_le _)
  simpa using this

/-! ## Process tree termination (`_terminate_process_tree`, runner.py lines 42-69)

The psutil world is an explicit environment: `lookup` models
`psutil.Process(pid)` (whose exception means the process is already
gone), `children` the recursive child enumeration, `terminate`/`kill`
the two signals (each may raise for any individual process), and
`waitProcs` models `psutil.wait_procs`, which per its contract swallows
per-process errors and returns the still-alive subset.  The function
returns the list of signals that were actually delivered, inside
`Except` so that an uncaught exception would be visible as `.error`. -/

/-- psutil-style per-process failures. -/
inductive PErr
  | noSuchProcess
  | accessDenied
deriving DecidableEq

/-- A delivered signal: graceful terminate or forced kill of one pid. -/
inductive Sig
  | term (pid : Nat)
  | kill (pid : Nat)
deriving DecidableEq

/-- The psutil environment a call to `_terminate_process_tree` runs in. -/
structure PsEnv where
  lookup : Nat → Except PErr Unit
  children : Nat → Except PErr (List Nat)
  terminate : Nat → Except PErr Unit
  waitProcs : List Nat → List Nat
  kill : Nat → Except PErr Unit

/-- `try: op(...) except Exception: pass` — record the signal if the
call succeeded, swallow the failure otherwise. -/
def attempt (r : Except PErr Unit) (s : Sig) : List Sig :=
  match r with
  | .ok _ => [s]
  | .error _ => []

/-- `_terminate_process_tree` (runner.py lines 42-69): look the process
up (return silently if that fails), enumerate children (empty on
failure), terminate each child then the parent (failures swallowed),
wait, then kill whatever is still alive (failures swallowed). -/
def terminate_process_tree (env : PsEnv) (pid : Nat) : Except PErr (List Sig) :=
  match env.lookup pid with
  | .error _ => .ok []
  | .ok _ =>
    let children := match env.children pid with
      | .error _ => []
      | .ok cs => cs
    let s1 := children.bind fun c => attempt (env.terminate c) (.term c)
    let s2 := attempt (env.terminate pid) (.term pid)
    let alive := env.waitProcs (children ++ [pid])
    let s3 := alive.bind fun p => attempt (env.kill p) (.kill p)
    .ok (s1 ++ s2 ++ s3)

/-! ## The supervisor (`run`, runner.py lines 72-209) -/

/-- The engine-initiated termination reasons the source assigns to the
`reason` variable.  The source's `None` (spec: `natural_exit`) is
`Option.none`; the source's `"kill_wait"` is the spec's
`wait_escalation`. -/
inductive Reason
  | timeout
  | idle_timeout
  | verified_early_exit
  | kill_wait
deriving DecidableEq

/-- The parameters of `run` (runner.py lines 72-86).  `soft_verify`
records whether a predicate was supplied; its invocation outcomes come
from the observation trace. -/
structure RunConfig where
  argv : List Str
  timeout_sec : Int
  max_out : Nat
  max_err : Nat
  idle_timeout_sec : Option Int
  soft_verify : Bool
  soft_verify_start_after_sec : Int
  soft_verify_every_sec : Int
  soft_verify_fast_every_sec : Int
  soft_verify_grace_sec : Int
  soft_verify_kill_if_no_exit_after_sec : Int
  soft_success_hints : Option (List Str)
deriving DecidableEq

/-- The loop-carried mutable locals of `run` (runner.py lines 119-123). -/
structure LoopState where
  verified_at : Option Time
  next_verify_at : Time
  fast_mode : Bool
  last_hint_scan_at : Time
deriving DecidableEq

/-- Everything one loop iteration reads from the outside world:
`p.poll()`, `time.monotonic()`, the two shared buffers as the reader
threads have filled them so far, the value the verify predicate would
produce if invoked now (`none` models an exception raised by it), and
the shared `last_output[0]` timestamp. -/
structure Obs where
  poll : Option Int
  now : Time
  outBuf : List Str
  errBuf : List Str
  verifyResult : Option Bool
  lastOutput : Time
deriving DecidableEq

/-- How the polling loop ended: the poll result (for a natural exit)
and the values of `reason` / `killed` / `forced_success` at the break. -/
structure BreakInfo where
  rc : Option Int
  reason : Option Reason
  killed : Bool
  forced_success : Bool
deriving DecidableEq

/-- Outcome of one loop iteration: continue with updated locals, or
leave the loop. -/
inductive StepOut
  | cont (st : LoopState)
  | brk (b : BreakInfo)
deriving DecidableEq

/-- Python truthiness of `soft_verify and soft_success_hints`
(runner.py line 139): a predicate is configured and the hint list is
neither `None` nor empty. -/
def hintsActive (cfg : RunConfig) : Bool :=
  cfg.soft_verify && !(cfg.soft_success_hints.getD []).isEmpty

/-- `"".join(out_buf[-10:]) + "".join(err_buf[-10:])` (line 141). -/
def combinedTail (o : Obs) : Str :=
  (lastN 10 o.outBuf).join ++ (lastN 10 o.errBuf).join

/-- `any(h in combined for h in soft_success_hints)` (line 142). -/
def hintHit (cfg : RunConfig) (o : Obs) : Bool :=
  (cfg.soft_success_hints.getD []).any fun h => strContains (combinedTail o) h

/-- The hint-scan block (lines 138-143): at most once per second,
rescan the buffer tails and latch `fast_mode`; returns the new
`(fast_mode, last_hint_scan_at)`. -/
def hintScan (cfg : RunConfig) (st : LoopState) (o : Obs) : Bool × Time :=
  if hintsActive cfg = true ∧ o.now - st.last_hint_scan_at ≥ 1 then
    (if hintHit cfg o then true else st.fast_mode, o.now)
  else (st.fast_mode, st.last_hint_scan_at)

/-- The verification-poll block (lines 145-156), given the already
updated fast mode: if configured, unconfirmed, and the scheduled
instant has passed, reschedule from the current cadence and invoke the
predicate, treating an exception as `False`; returns the new
`(verified_at, next_verify_at)`. -/
def verifyStep (cfg : RunConfig) (st : LoopState) (o : Obs) (fast : Bool) : Option Time × Time :=
  if cfg.soft_verify = true ∧ st.verified_at = none ∧ o.now ≥ st.next_verify_at then
    let interval : Int := if fast then cfg.soft_verify_fast_every_sec else cfg.soft_verify_every_sec
    let ok : Bool := match o.verifyResult with
      | some b => b
      | none => false
    (if ok then some o.now else st.verified_at, o.now + ((max 1 interval : Int) : Time))
  else (st.verified_at, st.next_verify_at)

/-- Python truthiness of `idle_timeout_sec and (now - last_output[0]) >= idle_timeout_sec`
(line 169): `None` and `0` both disable the branch. -/
def idleHit (cfg : RunConfig) (o : Obs) : Bool :=
  match cfg.idle_timeout_sec with
  | none => false
  | some i => if i = 0 then false else decide (o.now - o.lastOutput ≥ (i : Time))

/-- The loop locals after the hint-scan and verification blocks of one
iteration have run (lines 138-156): `verified_at` and `next_verify_at`
from `verifyStep` (fed the just-updated fast mode), `fast_mode` and
`last_hint_scan_at` from `hintScan`. -/
def nextState (cfg : RunConfig) (st : LoopState) (o : Obs) : LoopState :=
  ⟨(verifyStep cfg st o (hintScan cfg st o).1).1,
   (verifyStep cfg st o (hintScan cfg st o).1).2,
   (hintScan cfg st o).1,
   (hintScan cfg st o).2⟩

/-- The trailing idle-timeout / hard-timeout checks of one iteration
(lines 169-181): break on idle, break on hard timeout, else sleep and
continue with the updated locals. -/
def restOut (cfg : RunConfig) (start : Time) (o : Obs) (st' : LoopState) : StepOut :=
  if idleHit cfg o = true then .brk ⟨none, some .idle_timeout, true, false⟩
  else if o.now - start ≥ (cfg.timeout_sec : Time) then .brk ⟨none, some .timeout, true, false⟩
  else .cont st'

/-- One iteration of the `while True` loop (runner.py lines 130-181),
in the source's order: poll (natural exit wins), hint scan, scheduled
verification poll, verified-grace/kill check, idle timeout, hard
timeout, else sleep and continue. -/
def stepLoop (cfg : RunConfig) (start : Time) (st : LoopState) (o : Obs) : StepOut :=
  match o.poll with
  | some rc => .brk ⟨some rc, none, false, false⟩
  | none =>
    match (nextState cfg st o).verified_at with
    | some v =>
      if o.now - v ≥ (cfg.soft_verify_grace_sec : Time) ∧
          o.now - v ≥ (cfg.soft_verify_kill_if_no_exit_after_sec : Time) then
        .brk ⟨none, some .verified_early_exit, true, true⟩
      else restOut cfg start o (nextState cfg st o)
    | none => restOut cfg start o (nextState cfg st o)

/-- The loop locals as initialised before the loop (lines 119-123). -/
def initState (cfg : RunConfig) (start : Time) : LoopState :=
  ⟨none, start + ((max 0 cfg.soft_verify_start_after_sec : Int) : Time), false, start⟩

/-- Drive the loop over a finite observation trace; `none` means the
trace ended with the loop still running. -/
def runLoop (cfg : RunConfig) (start : Time) : LoopState → List Obs → Option BreakInfo
  | _, [] => none
  | st, o :: os =>
    match stepLoop cfg start st o with
    | .brk b => some b
    | .cont st' => runLoop cfg start st' os

/-- What the post-loop cleanup reads from the world: whether
`p.wait(timeout=5)` raised `TimeoutExpired`, and the value of
`p.returncode` at result-assembly time. -/
structure PostEnv where
  waitTimedOut : Bool
  returncode : Option Int
deriving DecidableEq

/-- The structured result (runner.py lines 12-20). -/
structure RunResult where
  argv : List Str
  exit_code : Int
  stdout : Str
  stderr : Str
  timed_out : Bool
  killed : Bool
  reason : Option Reason
deriving DecidableEq

/-- Result assembly after the loop (runner.py lines 183-209):
escalate to `kill_wait` if the bounded wait timed out, truncate the
joined buffers to their caps, force exit code 0 on a verified early
exit (124 only when no real return code is available), and derive
`timed_out`. -/
def assemble (cfg : RunConfig) (b : BreakInfo) (post : PostEnv)
    (finalOut finalErr : List Str) : RunResult :=
  let reason1 : Option Reason :=
    if post.waitTimedOut then some (b.reason.getD .kill_wait) else b.reason
  let killed1 : Bool := if post.waitTimedOut then true else b.killed
  let out := (finalOut.join).take cfg.max_out
  let err := (finalErr.join).take cfg.max_err
  let exit_code : Int :=
    if b.forced_success then 0
    else match post.returncode with
      | some rc => rc
      | none => 124
  let timed_out : Bool := decide (reason1 = some .timeout) && !b.forced_success
  ⟨cfg.argv, exit_code, out, err, timed_out, killed1, reason1⟩

/-- `run` (runner.py lines 72-209) over an explicit world: launch at
instant `start`, drive the loop over `trace`, then assemble the result
from the post-loop environment and the final buffer contents. -/
def run (cfg : RunConfig) (start : Time) (trace : List Obs) (post : PostEnv)
    (finalOut finalErr : List Str) : Option RunResult :=
  match runLoop cfg start (initState cfg start) trace with
  | none => none
  | some b => some (assemble cfg b post finalOut finalErr)

/-! ## Shape of loop breaks

Every way out of the polling loop sets `reason` / `killed` /
`forced_success` to one of five fixed combinations; `brkOk` records the
combinations' common shape, proved by exhausting the branches of
`stepLoop`. -/

/-- Invariant of every `BreakInfo` the loop can produce:
`forced_success` exactly characterises the `verified_early_exit`
reason, a forced success is always engine-killed, and a natural exit
(a recorded poll code) carries no reason, no kill, no forcing. -/
def brkOk (b : BreakInfo) : Prop :=
  (b.reason = some Reason.verified_early_exit ↔ b.forced_success = true) ∧
  (b.forced_success = true → b.killed = true) ∧
  (∀ c, b.rc = some c → b.reason = none ∧ b.killed = false ∧ b.forced_success = false)

lemma stepLoop_brk (cfg : RunConfig) (start : Time) (st : LoopState) (o : Obs)
    (b : BreakInfo) (h : stepLoop cfg start st o = .brk b) : brkOk b := by
  unfold stepLoop restOut at h
  repeat' split at h
  all_goals (cases h; try simp [brkOk])

lemma runLoop_brk (cfg : RunConfig) (start : Time) :
    ∀ (st : LoopState) (trace : List Obs) (b : BreakInfo),
      runLoop cfg start st trace = some b → brkOk b := by
  intro st trace
  induction trace generalizing st with
  | nil => intro b h; simp [runLoop] at h
  | cons o os ih =>
    intro b h
    rw [runLoop] at h
    cases hs : stepLoop cfg start st o with
    | brk b' =>
      rw [hs] at h
      injection h with h2
      subst h2
      exact stepLoop_brk cfg start st o b' hs
    | cont st' =>
      rw [hs] at h
      exact ih st' b h

lemma run_reason_brk (cfg : RunConfig) (start : Time) (trace : List Obs) (post : PostEnv)
    (fo fe : List Str) (res : RunResult)
    (hrun : run cfg start trace post fo fe = some res) :
    ∃ b, runLoop cfg start (initState cfg start) trace = some b ∧
      res = assemble cfg b post fo fe ∧ brkOk b := by
  unfold run at hrun
  cases hl : runLoop cfg start (initState cfg start) trace with
  | none => rw [hl] at hrun; cases hrun
  | some b =>
    rw [hl] at hrun
    injection hrun with h2
    exact ⟨b, rfl, h2.symm, runLoop_brk cfg start _ _ _ hl⟩

/-- The assembled result reports `verified_early_exit` exactly when the
loop broke with it: the post-loop wait escalation never overwrites a
set reason and never introduces this one. -/
lemma assemble_reason_verified (cfg : RunConfig) (b : BreakInfo) (post : PostEnv)
    (fo fe : List Str) :
    (assemble cfg b post fo fe).reason = some Reason.verified_early_exit ↔
      b.reason = some Reason.verified_early_exit := by
  unfold assemble
  cases hw : post.waitTimedOut <;> cases hb : b.reason <;> simp

/-- C1.  If the returned result records `termination_reason =
verified_early_exit` (the soft-verification predicate confirmed and the
child was killed after the kill deadline), then `exit_code = 0`,
`timed_out = false` and `killed = true`, whatever the process's real
state or exit code was: the break that sets this reason also sets
`forced_success` and `killed`, forcing the success code in assembly. -/
theorem verified_early_exit_forces_success
    (cfg : RunConfig) (start : Time) (trace : List Obs) (post : PostEnv)
    (fo fe : List Str) (res : RunResult)
    (hrun : run cfg start trace post fo fe = some res)
    (hreason : res.reason = some Reason.verified_early_exit) :
    res.exit_code = 0 ∧ res.timed_out = false ∧ res.killed = true := by
  obtain ⟨b, hl, hres, hiff, hkill, _⟩ := run_reason_brk cfg start trace post fo fe res hrun
  rw [hres] at hreason
  have hbv : b.reason = some Reason.verified_early_exit :=
    (assemble_reason_verified cfg b post fo fe).mp hreason
  have hforced : b.forced_success = true := hiff.mp hbv
  have hkilled : b.killed = true := hkill hforced
  rw [hres]
  unfold assemble
  refine ⟨by simp [hforced], by simp [hforced], ?_⟩
  cases hw : post.waitTimedOut <;> simp [hkilled]

/-- C3.  Without a configured verification predicate, a run whose loop
ended because `p.poll()` reported an exit code `c` (the child exited by
itself — in particular before the hard timeout ever fired) reports
`termination_reason = natural_exit` (the source's `reason = None`),
`killed = false`, `timed_out = false`, and the real exit code `c`.  The
two subprocess-semantics facts the source relies on are hypotheses:
after a successful poll, `p.wait(5)` returns at once and `p.returncode`
equals the polled code. -/
theorem natural_exit_reports_real_code
    (cfg : RunConfig) (start : Time) (trace : List Obs) (post : PostEnv)
    (fo fe : List Str) (res : RunResult) (b : BreakInfo) (c : Int)
    (hnoverify : cfg.soft_verify = false)
    (hloop : runLoop cfg start (initState cfg start) trace = some b)
    (hrc : b.rc = some c)
    (hwait : post.waitTimedOut = false)
    (hcode : post.returncode = some c)
    (hrun : run cfg start trace post fo fe = some res) :
    res.reason = none ∧ res.killed = false ∧ res.timed_out = false ∧ res.exit_code = c := by
  obtain ⟨b', hl', hres, hok⟩ := run_reason_brk cfg start trace post fo fe res hrun
  rw [hloop] at hl'
  injection hl' with hb
  subst hb
  obtain ⟨hreason, hkilled, hforced⟩ := hok.2.2 c hrc
  subst hres
  simp [assemble, hwait, hcode, hreason, hkilled, hforced]

/-- C8.  When the loop did not end in a verified-success termination,
the assembled `exit_code` is the real return code whenever one is
available, and the sentinel `124` when the process was killed and no
return code is available (runner.py line 198). -/
theorem sentinel_exit_code_124
    (cfg : RunConfig) (start : Time) (trace : List Obs) (post : PostEnv)
    (fo fe : List Str) (res : RunResult)
    (hrun : run cfg start trace post fo fe = some res)
    (hnotv : res.reason ≠ some Reason.verified_early_exit) :
    (res.killed = true → post.returncode = none → res.exit_code = 124) ∧
    (∀ r, post.returncode = some r → res.exit_code = r) := by
  obtain ⟨b, hl, hres, hiff, _, _⟩ := run_reason_brk cfg start trace post fo fe res hrun
  have hbnv : ¬ b.reason = some Reason.verified_early_exit := by
    intro hb
    exact hnotv (hres ▸ (assemble_reason_verified cfg b post fo fe).mpr hb)
  have hforced : b.forced_success = false := by
    cases hf : b.forced_success
    · rfl
    · exact absurd (hiff.mpr hf) hbnv
  subst hres
  constructor
  · intro _ hnone
    simp [assemble, hforced, hnone]
  · intro r hr
    simp [assemble, hforced, hr]

/-- C4.  The result's `stdout`/`stderr` never exceed their caps (they
are the joined buffers cut to the cap, line 195-196), and when the
stdout buffer is what `_read_stream` produced from a stream carrying at
least `max_stdout_bytes` of data, the result's `stdout` has length
exactly the cap — the excess was dropped by the capture loop, with no
error anywhere (all functions involved are total). -/
theorem output_caps_respected
    (cfg : RunConfig) (start : Time) (trace : List Obs) (post : PostEnv)
    (fo fe : List Str) (res : RunResult) (chunks : List Str)
    (hrun : run cfg start trace post fo fe = some res) :
    res.stdout.length ≤ cfg.max_out ∧ res.stderr.length ≤ cfg.max_err ∧
    (fo = (readStream chunks cfg.max_out).1 →
      cfg.max_out ≤ sumLen (chunks.takeWhile fun c => !c.isEmpty) →
      res.stdout.length = cfg.max_out) := by
  obtain ⟨b, hl, hres, -⟩ := run_reason_brk cfg start trace post fo fe res hrun
  subst hres
  refine ⟨?_, ?_, ?_⟩
  · simp [assemble, List.length_take]
  · simp [assemble, List.length_take]
  · intro hfo hge
    subst hfo
    have hj := readStream_len chunks cfg.max_out
    simp only [sumLen] at hj hge
    simp [assemble, List.length_take, List.length_join]
    omega

/-- C9.  `_terminate_process_tree` is total and best-effort: whatever
the psutil world does — the process already gone at lookup (the
already-exited / second-invocation case), children enumeration failing,
any individual terminate or kill signal failing — the call returns
normally (never `.error`), and on an already-exited process it returns
having delivered no signal at all.  The run result does not depend on
it: `run` takes no input from the terminator. -/
theorem terminate_tree_total_swallows (env : PsEnv) (pid : Nat) :
    (∃ sigs, terminate_process_tree env pid = .ok sigs) ∧
    (∀ e, env.lookup pid = .error e → terminate_process_tree env pid = .ok []) := by
  unfold terminate_process_tree
  cases hl : env.lookup pid with
  | error e => exact ⟨⟨[], rfl⟩, fun _ _ => rfl⟩
  | ok u =>
    refine ⟨⟨_, rfl⟩, ?_⟩
    intro e he
    cases he

lemma stepLoop_idle_zero (cfg : RunConfig) (start : Time) (st : LoopState) (o : Obs) :
    stepLoop { cfg with idle_timeout_sec := some 0 } start st o =
      stepLoop { cfg with idle_timeout_sec := none } start st o := rfl

lemma runLoop_idle_zero (cfg : RunConfig) (start : Time) :
    ∀ (st : LoopState) (trace : List Obs),
      runLoop { cfg with idle_timeout_sec := some 0 } start st trace =
        runLoop { cfg with idle_timeout_sec := none } start st trace := by
  intro st trace
  induction trace generalizing st with
  | nil => rfl
  | cons o os ih =>
    rw [runLoop, runLoop, stepLoop_idle_zero]
    cases stepLoop { cfg with idle_timeout_sec := none } start st o with
    | brk b => rfl
    | cont st' => exact ih st'

/-- C10.  An `idle_timeout_sec` of `0` disables the idle-timeout policy
entirely: because the guard is `if idle_timeout_sec and ...`, a zero
value short-circuits exactly like `None`, so a run with
`idle_timeout_sec = 0` is indistinguishable — same result on every
trace — from one with no idle timeout, rather than terminating
immediately (note `now - last_output ≥ 0` would otherwise hold at
once). -/
theorem idle_timeout_zero_disabled (cfg : RunConfig) (start : Time) (trace : List Obs)
    (post : PostEnv) (fo fe : List Str) :
    run { cfg with idle_timeout_sec := some 0 } start trace post fo fe =
      run { cfg with idle_timeout_sec := none } start trace post fo fe := by
  unfold run
  rw [show initState { cfg with idle_timeout_sec := some 0 } start =
        initState { cfg with idle_timeout_sec := none } start from rfl]
  rw [runLoop_idle_zero]
  rfl

/-- Rewrites an iteration in which the verify predicate would raise
(`verifyResult = none`) into one in which it returns `False`. -/
def normVerify (o : Obs) : Obs :=
  ⟨o.poll, o.now, o.outBuf, o.errBuf, some (o.verifyResult.getD false), o.lastOutput⟩

lemma stepLoop_normVerify (cfg : RunConfig) (start : Time) (st : LoopState) (o : Obs) :
    stepLoop cfg start st (normVerify o) = stepLoop cfg start st o := by
  obtain ⟨p, n, ob, eb, v, lo⟩ := o
  cases v <;> rfl

lemma runLoop_normVerify (cfg : RunConfig) (start : Time) :
    ∀ (st : LoopState) (trace : List Obs),
      runLoop cfg start st (trace.map normVerify) = runLoop cfg start st trace := by
  intro st trace
  induction trace generalizing st with
  | nil => rfl
  | cons o os ih =>
    rw [List.map_cons, runLoop, runLoop, stepLoop_normVerify]
    cases stepLoop cfg start st o with
    | brk b => rfl
    | cont st' => exact ih st'

/-- C7.  An exception raised by an invocation of the verification
predicate (`verifyResult = none` in an observation) is treated exactly
as the predicate returning `False` — the `try/except` at runner.py
lines 150-153 — and is never propagated: a run over a trace in which
every would-be exception is replaced by a returned `False` is
identical, and `run` is a total function, so no predicate error ever
reaches the caller. -/
theorem verify_exception_as_false (cfg : RunConfig) (start : Time) (trace : List Obs)
    (post : PostEnv) (fo fe : List Str) :
    run cfg start (trace.map normVerify) post fo fe = run cfg start trace post fo fe := by
  unfold run
  rw [runLoop_normVerify]

lemma stepLoop_cont (cfg : RunConfig) (start : Time) (st : LoopState) (o : Obs)
    (st' : LoopState) (h : stepLoop cfg start st o = .cont st') :
    st' = nextState cfg st o := by
  unfold stepLoop restOut at h
  repeat' split at h
  all_goals (cases h; try rfl)

/-- C2 (amended).  Once the predicate has confirmed at instant `v`, a
poll iteration at which the process is still running terminates the
run with `verified_early_exit` exactly when the time since
confirmation has reached BOTH `verify_grace_period` and
`verify_kill_deadline` (runner.py lines 158-167 nest the two checks),
i.e. at about `v + max(grace, kill_deadline)` — which equals
`v + verify_kill_deadline` whenever the grace period does not exceed
the kill deadline (as in the defaults 10 ≤ 15). -/
theorem verified_kill_after_grace_and_deadline
    (cfg : RunConfig) (start : Time) (st : LoopState) (o : Obs) (v : Time)
    (hpoll : o.poll = none) (hv : st.verified_at = some v) :
    stepLoop cfg start st o = .brk ⟨none, some Reason.verified_early_exit, true, true⟩ ↔
      (o.now - v ≥ (cfg.soft_verify_grace_sec : Time) ∧
       o.now - v ≥ (cfg.soft_verify_kill_if_no_exit_after_sec : Time)) := by
  have hns : (nextState cfg st o).verified_at = some v := by
    simp [nextState, verifyStep, hv]
  unfold stepLoop
  simp only [hpoll, hns]
  by_cases hc : (o.now - v ≥ (cfg.soft_verify_grace_sec : Time) ∧
      o.now - v ≥ (cfg.soft_verify_kill_if_no_exit_after_sec : Time))
  · simp [hc]
  · rw [if_neg hc]
    constructor
    · intro h
      exfalso
      unfold restOut at h
      split_ifs at h <;> simp_all
    · intro h
      exact absurd h hc

lemma hintScan_fast_of (cfg : RunConfig) (st : LoopState) (o : Obs)
    (h1 : hintsActive cfg = true) (h2 : o.now - st.last_hint_scan_at ≥ 1)
    (h3 : hintHit cfg o = true) : (hintScan cfg st o).1 = true := by
  simp [hintScan, h1, h2, h3]

lemma hintScan_mono (cfg : RunConfig) (st : LoopState) (o : Obs)
    (hfm : st.fast_mode = true) : (hintScan cfg st o).1 = true := by
  unfold hintScan
  split_ifs <;> simp [hfm]

/-- C5 (amended).  With a verification predicate and a non-empty hint
list configured, a hint observed by the scanner — which looks only at
the concatenation of the LAST TEN chunks of each buffer
(`out_buf[-10:]`, `err_buf[-10:]`), and only when at least one second
has passed since the previous scan — switches the cadence to fast on
the continuing state; and the switch is permanent: once `fast_mode` is
set, every later iteration keeps it. -/
theorem hint_switch_fast_tail_scan
    (cfg : RunConfig) (start : Time) (st : LoopState) (o : Obs) :
    (hintsActive cfg = true → o.now - st.last_hint_scan_at ≥ 1 → hintHit cfg o = true →
      ∀ st', stepLoop cfg start st o = .cont st' → st'.fast_mode = true) ∧
    (st.fast_mode = true →
      ∀ st', stepLoop cfg start st o = .cont st' → st'.fast_mode = true) := by
  constructor
  · intro h1 h2 h3 st' hc
    rw [stepLoop_cont cfg start st o st' hc]
    simpa [nextState] using hintScan_fast_of cfg st o h1 h2 h3
  · intro hfm st' hc
    rw [stepLoop_cont cfg start st o st' hc]
    simpa [nextState] using hintScan_mono cfg st o hfm

/-- C6 (amended).  The verification interval is recomputed only AT a
poll attempt: when an attempt happens (predicate configured, not yet
confirmed, scheduled instant reached), the next scheduled instant
becomes `now + max(1, interval)` with the interval chosen by the
CURRENT cadence mode (including a hint picked up this very iteration);
but before the already-scheduled instant no attempt occurs at all, so
a fast-mode hint tightens polling only from the next scheduled attempt
onward — the pending normal-cadence instant still has to arrive first. -/
theorem interval_recomputed_at_poll_attempts
    (cfg : RunConfig) (start : Time) (st : LoopState) (o : Obs) (st' : LoopState)
    (hcont : stepLoop cfg start st o = .cont st') :
    (cfg.soft_verify = true → st.verified_at = none → o.now ≥ st.next_verify_at →
      st'.next_verify_at = o.now +
        ((max 1 (if (hintScan cfg st o).1 = true then cfg.soft_verify_fast_every_sec
          else cfg.soft_verify_every_sec) : Int) : Time)) ∧
    (¬ o.now ≥ st.next_verify_at →
      st'.next_verify_at = st.next_verify_at ∧ st'.verified_at = st.verified_at) := by
  rw [stepLoop_cont cfg start st o st' hcont]
  constructor
  · intro h1 h2 h3
    simp [nextState, verifyStep, h1, h2, h3]
  · intro h3
    simp [nextState, verifyStep, h3]

/-! ## Concrete executions

Fixture configurations, traces and states used to exhibit concrete
runs of the embedded engine. -/

/-- Verify-enabled configuration: hard timeout 1000, caps 5/5, no idle
timeout, cadence 10/2, grace 1, kill deadline 2, no hints. -/
def exCfg : RunConfig := ⟨[], 1000, 5, 5, none, true, 0, 10, 2, 1, 2, none⟩

/-- Plain configuration: no verification, hard timeout 1000, caps 5/5,
no idle timeout. -/
def exCfgPlain : RunConfig := ⟨[], 1000, 5, 5, none, false, 0, 10, 2, 10, 15, none⟩

/-- Verify-enabled configuration with grace period 20 LONGER than the
kill deadline 15. -/
def exCfgGrace : RunConfig := ⟨[], 1000, 5, 5, none, true, 0, 10, 2, 20, 15, none⟩

/-- Hint-enabled configuration: verify on, cadence 10 normal / 2 fast,
hint string `"H"`. -/
def exCfgHint : RunConfig := ⟨[], 1000, 100, 100, none, true, 0, 10, 2, 10, 15, some [['H']]⟩

/-- Trace in which the predicate confirms at instant 0 and the process
is still running at instant 5. -/
def exTraceV : List Obs := [⟨none, 0, [], [], some true, 0⟩, ⟨none, 5, [], [], some false, 5⟩]

/-- The result of `exCfg` over `exTraceV`: forced success. -/
def exResV : RunResult := ⟨[], 0, [], [], false, true, some Reason.verified_early_exit⟩

/-- Trace in which the child exits by itself with code 2 at once. -/
def exTraceN : List Obs := [⟨some 2, 0, [], [], none, 0⟩]

/-- The loop break for `exTraceN`: a natural exit with code 2. -/
def exBrkN : BreakInfo := ⟨some 2, none, false, false⟩

/-- The result of `exCfgPlain` over `exTraceN`. -/
def exResN : RunResult := ⟨[], 2, [], [], false, false, none⟩

/-- Two stdout chunks totalling 6 characters, against cap 5. -/
def exChunks : List Str := [['a', 'b', 'c'], ['d', 'e', 'f']]

/-- The result of `exCfgPlain` over `exTraceN` with the captured
(truncated) stdout buffer. -/
def exResOut : RunResult := ⟨[], 2, ['a', 'b', 'c', 'd', 'e'], [], false, false, none⟩

/-- Trace whose only iteration happens past the hard timeout. -/
def exTraceT : List Obs := [⟨none, 2000, [], [], none, 2000⟩]

/-- The result of `exCfgPlain` over `exTraceT` with no return code
available: sentinel 124, hard timeout. -/
def exResT : RunResult := ⟨[], 124, [], [], true, true, some Reason.timeout⟩

/-- Loop state in which the predicate confirmed at instant 0. -/
def exStV : LoopState := ⟨some 0, 100, false, 0⟩

/-- Observation at instant 16: past a kill deadline of 15, inside a
grace period of 20 (counted from confirmation at 0). -/
def exObsPastKill : Obs := ⟨none, 16, [], [], some true, 16⟩

/-- Observation at instant 5: past both grace 1 and kill deadline 2. -/
def exObsPastBoth : Obs := ⟨none, 5, [], [], some false, 5⟩

/-- Fresh loop state with the first verification far in the future. -/
def exStH : LoopState := ⟨none, 1000, false, 0⟩

/-- Observation whose stdout buffer holds the hint `"H"` in its FIRST
chunk followed by ten one-character chunks, so the hint is present in
the accumulated output but absent from the last ten chunks. -/
def exObsH : Obs :=
  ⟨none, 2, [['H'], ['a'], ['a'], ['a'], ['a'], ['a'], ['a'], ['a'], ['a'], ['a'], ['a']],
   [], some false, 2⟩

/-- Observation whose stdout tail holds the hint `"H"`. -/
def exObsHT : Obs := ⟨none, 2, [['H']], [], some false, 2⟩

/-- Iteration at instant 0: first verification attempt, no hint yet. -/
def exObsA : Obs := ⟨none, 0, [], [], some false, 0⟩

/-- Iteration at instant 1: the hint appears on stdout. -/
def exObsB : Obs := ⟨none, 1, [['H']], [], some false, 1⟩

/-- Iteration at instant 4: fast interval (2) elapsed since the hint,
predicate would confirm. -/
def exObsC : Obs := ⟨none, 4, [['H']], [], some true, 4⟩

/-- State after the hint switched fast mode on, next attempt at 10. -/
def exStD : LoopState := ⟨none, 10, true, 1⟩

/-- Iteration at instant 10: the scheduled attempt arrives. -/
def exObsD : Obs := ⟨none, 10, [['H']], [], some false, 10⟩

/-- psutil world in which the process is already gone at lookup. -/
def exPsEnv : PsEnv :=
  ⟨fun _ => .error .noSuchProcess, fun _ => .ok [], fun _ => .ok (),
   fun _ => [], fun _ => .ok ()⟩

/-- C1 witness: a concrete run whose predicate confirms at instant 0
and whose child is still alive at instant 5 breaks with
`verified_early_exit`; the theorem then forces success. -/
theorem verified_early_exit_forces_success_witness :
    run exCfg 0 exTraceV ⟨false, none⟩ [] [] = some exResV ∧
    (exResV.exit_code = 0 ∧ exResV.timed_out = false ∧ exResV.killed = true) :=
  ⟨by decide,
   verified_early_exit_forces_success exCfg 0 exTraceV ⟨false, none⟩ [] [] exResV
     (by decide) (by decide)⟩

/-- C2 counterexample: with `verify_grace_period = 20` and
`verify_kill_deadline = 15`, at instant 16 — one second past the kill
deadline measured from the confirmation at instant 0, with the process
still running — the loop does NOT terminate: it continues unchanged,
contrary to the claim that the run is forcibly terminated once the
kill deadline has elapsed since confirmation (at about
`T + verify_kill_deadline`). -/
theorem kill_deadline_elapsed_not_terminated :
    exObsPastKill.now - 0 ≥ exCfgGrace.soft_verify_kill_if_no_exit_after_sec ∧
    exStV.verified_at = some 0 ∧
    exObsPastKill.poll = none ∧
    stepLoop exCfgGrace 0 exStV exObsPastKill = .cont exStV := by decide

/-- C2 witness: with grace 1 and kill deadline 2, the iteration at
instant 5 (confirmation at 0) breaks with `verified_early_exit`. -/
theorem verified_kill_after_grace_and_deadline_witness :
    exObsPastBoth.poll = none ∧ exStV.verified_at = some 0 ∧
    stepLoop exCfg 0 exStV exObsPastBoth =
      .brk ⟨none, some Reason.verified_early_exit, true, true⟩ :=
  ⟨rfl, rfl,
   (verified_kill_after_grace_and_deadline exCfg 0 exStV exObsPastBoth 0 rfl rfl).mpr
     (by decide)⟩

/-- C3 witness: child exits by itself with code 2 under the plain
configuration; the result reports the natural exit and real code. -/
theorem natural_exit_reports_real_code_witness :
    runLoop exCfgPlain 0 (initState exCfgPlain 0) exTraceN = some exBrkN ∧
    run exCfgPlain 0 exTraceN ⟨false, some 2⟩ [] [] = some exResN ∧
    (exResN.reason = none ∧ exResN.killed = false ∧ exResN.timed_out = false ∧
      exResN.exit_code = 2) :=
  ⟨by decide, by decide,
   natural_exit_reports_real_code exCfgPlain 0 exTraceN ⟨false, some 2⟩ [] [] exResN exBrkN 2
     (by decide) (by decide) (by decide) (by decide) (by decide) (by decide)⟩

/-- C4 witness: 6 characters of stdout against cap 5 — the captured,
assembled stdout has length exactly 5 and the run completes normally. -/
theorem output_caps_respected_witness :
    run exCfgPlain 0 exTraceN ⟨false, some 2⟩ ((readStream exChunks 5).1) [] = some exResOut ∧
    exResOut.stdout.length = exCfgPlain.max_out :=
  ⟨by decide,
   (output_caps_respected exCfgPlain 0 exTraceN ⟨false, some 2⟩ ((readStream exChunks 5).1) []
      exResOut exChunks (by decide)).2.2 rfl (by decide)⟩

/-- C5 counterexample: the hint `"H"` is present in the combined
captured output (it is the first chunk of eleven), the scan cooldown
has elapsed, a predicate and hints are configured — yet the iteration
leaves `fast_mode = false`, because the scanner only looks at the last
ten chunks of each buffer.  Refutes "if any hint substring is observed
ANYWHERE in the combined captured output, the scheduler switches". -/
theorem hint_in_full_output_ignored :
    strContains (exObsH.outBuf.join ++ exObsH.errBuf.join) ['H'] = true ∧
    hintsActive exCfgHint = true ∧
    exObsH.now - exStH.last_hint_scan_at ≥ 1 ∧
    stepLoop exCfgHint 0 exStH exObsH = .cont ⟨none, 1000, false, 2⟩ := by decide

/-- C5 witness: the hint in the buffer tail switches fast mode on. -/
theorem hint_switch_fast_tail_scan_witness :
    hintsActive exCfgHint = true ∧ hintHit exCfgHint exObsHT = true ∧
    (⟨none, 1000, true, 2⟩ : LoopState).fast_mode = true :=
  ⟨rfl, by decide,
   (hint_switch_fast_tail_scan exCfgHint 0 exStH exObsHT).1 rfl (by decide) (by decide)
     ⟨none, 1000, true, 2⟩ (by decide)⟩

/-- C6 counterexample: the first verification attempt at instant 0
schedules the next attempt for instant 10 (normal cadence 10); the
hint arrives at instant 1 and switches fast mode (interval 2); yet at
instant 4 — two fast intervals after the hint, with the predicate
ready to confirm — NO verification attempt happens (`verified_at`
stays `none`, `next_verify_at` stays 10): the already-scheduled
normal-cadence instant must fully elapse first, contrary to the claim
that a hint "immediately tightens the time until the next
verification poll". -/
theorem hint_not_immediate_tighten :
    stepLoop exCfgHint 0 (initState exCfgHint 0) exObsA = .cont ⟨none, 10, false, 0⟩ ∧
    stepLoop exCfgHint 0 ⟨none, 10, false, 0⟩ exObsB = .cont ⟨none, 10, true, 1⟩ ∧
    exObsC.now - exObsB.now ≥ exCfgHint.soft_verify_fast_every_sec ∧
    exObsC.verifyResult = some true ∧
    stepLoop exCfgHint 0 ⟨none, 10, true, 1⟩ exObsC = .cont ⟨none, 10, true, 4⟩ := by decide

/-- C6 witness: at the scheduled attempt (instant 10) in fast mode the
interval is recomputed as `max 1 2`, rescheduling for instant 12. -/
theorem interval_recomputed_at_poll_attempts_witness :
    stepLoop exCfgHint 0 exStD exObsD = .cont ⟨none, 12, true, 10⟩ ∧
    (⟨none, 12, true, 10⟩ : LoopState).next_verify_at =
      exObsD.now + ((max 1 (if (hintScan exCfgHint exStD exObsD).1 = true
        then exCfgHint.soft_verify_fast_every_sec
        else exCfgHint.soft_verify_every_sec) : Int) : Time) :=
  ⟨by decide,
   (interval_recomputed_at_poll_attempts exCfgHint 0 exStD exObsD ⟨none, 12, true, 10⟩
      (by decide)).1 rfl rfl (by decide)⟩

/-- C8 witness: hard-timeout kill with no return code available gives
the sentinel 124. -/
theorem sentinel_exit_code_124_witness :
    run exCfgPlain 0 exTraceT ⟨false, none⟩ [] [] = some exResT ∧ exResT.exit_code = 124 :=
  ⟨by decide,
   (sentinel_exit_code_124 exCfgPlain 0 exTraceT ⟨false, none⟩ [] [] exResT
      (by decide) (by decide)).1 (by decide) rfl⟩

/-- C9 witness: on an already-exited process (lookup fails) the
terminator returns normally having delivered no signal. -/
theorem terminate_tree_total_swallows_witness :
    exPsEnv.lookup 7 = .error .noSuchProcess ∧
    terminate_process_tree exPsEnv 7 = .ok [] :=
  ⟨rfl, (terminate_tree_total_swallows exPsEnv 7).2 .noSuchProcess rfl⟩
